import Mathlib

/-!
# Verification of the admin-articles controller (`src/articledto.ts`)

Shallow embedding of the `AdminArticleController` orchestration logic:
the create / update / delete / list / find-by-id endpoints, the tolerant
array-ish field parsing (`parseArrayField`, the inline-tag JSON parsing of
`create`, the `tagIds` comma-split of `create`), and the media / tag merge
semantics of `update`.

External collaborators (persistence use-cases, tag repository, file
uploader/deleter) are modelled as oracles bundled in an `Env` record; each
endpoint returns its HTTP-level result together with a trace of the side
effect calls it issued, in order.  JavaScript runtime values that flow through
the untyped parsing paths are modelled by `JsVal`; `JSON.parse` is modelled by
the executable `jsonParse` below (standard JSON grammar; string escapes cover
the common single-character escapes, `\u` sequences are not modelled).
-/

namespace ArticleCtl

/-- Model of a JavaScript runtime value as produced/consumed by the untyped
parsing paths (`JSON.parse` results, multipart field values).  Numbers keep a
sign and the concatenated integer/fraction digits (enough to decide JS
truthiness, which is all the embedded code inspects). -/
inductive JsVal where
  | undefined
  | null
  | bool (b : Bool)
  | num (neg : Bool) (mant : Nat)
  | str (s : String)
  | arr (elems : List JsVal)
  | obj (fields : List (String × JsVal))

/-- JS truthiness: `undefined`, `null`, `false`, `0`, `""` are falsy;
every object/array is truthy. -/
def JsVal.truthy : JsVal → Bool
  | .undefined => false
  | .null => false
  | .bool b => b
  | .num _ m => m ≠ 0
  | .str s => s ≠ ""
  | .arr _ => true
  | .obj _ => true

/-- Property read `v.k` on a non-nullish receiver: objects yield the value of
the last matching key (as `JSON.parse` keeps the last duplicate), everything
else yields `undefined`.  Reads on `null`/`undefined` receivers throw in JS
and are handled at the call sites. -/
def JsVal.getField (v : JsVal) (k : String) : JsVal :=
  match v with
  | .obj fs => (fs.foldl (fun acc p => if p.1 = k then some p.2 else acc) none).getD .undefined
  | _ => .undefined

/-- JS strict equality `===` against our values: primitives compare by value;
two independently parsed objects/arrays are distinct references and never
strictly equal (`NaN` does not arise in the embedded code). -/
def jsStrictEq : JsVal → JsVal → Bool
  | .undefined, .undefined => true
  | .null, .null => true
  | .bool a, .bool b => a = b
  | .num n1 m1, .num n2 m2 => (m1 = 0 ∧ m2 = 0) ∨ (n1 = n2 ∧ m1 = m2)
  | .str a, .str b => a = b
  | _, _ => false

/-- `xs.includes(v)` with `===` semantics. -/
def includesVal (xs : List JsVal) (v : JsVal) : Bool :=
  xs.any (fun x => jsStrictEq x v)

/-! ## A model of `JSON.parse` -/

/-- JSON whitespace. -/
def isWsChar (c : Char) : Bool := c = ' ' ∨ c = '\t' ∨ c = '\n' ∨ c = '\r'

/-- Drop leading JSON whitespace. -/
def skipWs : List Char → List Char
  | [] => []
  | c :: rest => if isWsChar c then skipWs rest else c :: rest

/-- Single-character string escapes of JSON (without the `\u` form):
`\n`, `\t`, `\r`, `\b`, `\f` map to their control characters and the three
self-escapes (quote, backslash, slash) map to themselves. -/
def escChar (e : Char) : Option Char :=
  if e = 'n' then some '\n'
  else if e = 't' then some '\t'
  else if e = 'r' then some '\r'
  else if e = 'b' then some (Char.ofNat 8)
  else if e = 'f' then some (Char.ofNat 12)
  else if e = '"' ∨ e = '\\' ∨ e = '/' then some e
  else none

/-- Parse the body of a JSON string literal (the opening quote already
consumed); returns the decoded characters and the remaining input. -/
def parseStrChars : List Char → Option (List Char × List Char)
  | [] => none
  | '"' :: rest => some ([], rest)
  | '\\' :: rest =>
    match rest with
    | [] => none
    | e :: rest2 =>
      match escChar e with
      | none => none
      | some c => (parseStrChars rest2).map (fun p => (c :: p.1, p.2))
  | c :: rest => (parseStrChars rest).map (fun p => (c :: p.1, p.2))

/-- Take a maximal run of decimal digits. -/
def takeDigits : List Char → List Char × List Char
  | [] => ([], [])
  | c :: rest =>
    if c.isDigit then
      let p := takeDigits rest
      (c :: p.1, p.2)
    else ([], c :: rest)

/-- Digits to a natural number. -/
def digitsToNat (ds : List Char) : Nat :=
  ds.foldl (fun a c => a * 10 + (c.toNat - 48)) 0

/-- JSON integer part: `0` or a nonzero digit followed by digits
(leading zeros are a syntax error, as in `JSON.parse`). -/
def intPartOk : List Char → Bool
  | [] => false
  | ['0'] => true
  | '0' :: _ => false
  | _ => true

/-- Parse the numeric token after an optional leading minus sign. -/
def parseNumTail (neg : Bool) (cs : List Char) : Option (JsVal × List Char) :=
  let p := takeDigits cs
  if intPartOk p.1 then
    match p.2 with
    | '.' :: rest =>
      let q := takeDigits rest
      if q.1 = [] then none
      else parseExpTail neg (digitsToNat (p.1 ++ q.1)) q.2
    | rest => parseExpTail neg (digitsToNat p.1) rest
  else none
where
  /-- Parse an optional exponent part (its value does not affect truthiness,
  which is all the embedded code inspects, so only its syntax is checked). -/
  parseExpTail (neg : Bool) (mant : Nat) (cs : List Char) : Option (JsVal × List Char) :=
    match cs with
    | 'e' :: rest => expDigits neg mant rest
    | 'E' :: rest => expDigits neg mant rest
    | rest => some (.num neg mant, rest)
  /-- Exponent sign and digits. -/
  expDigits (neg : Bool) (mant : Nat) (cs : List Char) : Option (JsVal × List Char) :=
    let body := match cs with
      | '+' :: rest => rest
      | '-' :: rest => rest
      | rest => rest
    let q := takeDigits body
    if q.1 = [] then none else some (.num neg mant, q.2)

/-- Literal keyword match. -/
def stripPrefixL : List Char → List Char → Option (List Char)
  | [], cs => some cs
  | _, [] => none
  | p :: ps, c :: cs => if p = c then stripPrefixL ps cs else none

mutual

/-- Fuel-indexed JSON value parser (model of `JSON.parse`). -/
def parseVal : Nat → List Char → Option (JsVal × List Char)
  | 0, _ => none
  | fuel + 1, cs =>
    match skipWs cs with
    | [] => none
    | c :: rest =>
      if c = 'n' then
        (stripPrefixL ['u', 'l', 'l'] rest).map (fun r => (.null, r))
      else if c = 't' then
        (stripPrefixL ['r', 'u', 'e'] rest).map (fun r => (.bool true, r))
      else if c = 'f' then
        (stripPrefixL ['a', 'l', 's', 'e'] rest).map (fun r => (.bool false, r))
      else if c = '"' then
        (parseStrChars rest).map (fun p => (.str (String.mk p.1), p.2))
      else if c = '-' then
        parseNumTail true rest
      else if c.isDigit then
        parseNumTail false (c :: rest)
      else if c = '[' then
        match skipWs rest with
        | ']' :: r2 => some (.arr [], r2)
        | _ => (parseElems fuel rest).map (fun p => (.arr p.1, p.2))
      else if c = '{' then
        match skipWs rest with
        | '}' :: r2 => some (.obj [], r2)
        | _ => (parseFields fuel rest).map (fun p => (.obj p.1, p.2))
      else none

/-- Comma-separated array elements up to the closing bracket. -/
def parseElems : Nat → List Char → Option (List JsVal × List Char)
  | 0, _ => none
  | fuel + 1, cs =>
    match parseVal fuel cs with
    | none => none
    | some (v, r) =>
      match skipWs r with
      | ',' :: r2 => (parseElems fuel r2).map (fun p => (v :: p.1, p.2))
      | ']' :: r2 => some ([v], r2)
      | _ => none

/-- Comma-separated object members up to the closing brace. -/
def parseFields : Nat → List Char → Option (List (String × JsVal) × List Char)
  | 0, _ => none
  | fuel + 1, cs =>
    match skipWs cs with
    | '"' :: r =>
      match parseStrChars r with
      | none => none
      | some (k, r2) =>
        match skipWs r2 with
        | ':' :: r3 =>
          match parseVal fuel r3 with
          | none => none
          | some (v, r4) =>
            match skipWs r4 with
            | ',' :: r5 => (parseFields fuel r5).map (fun p => ((String.mk k, v) :: p.1, p.2))
            | '}' :: r5 => some ([(String.mk k, v)], r5)
            | _ => none
        | _ => none
    | _ => none

end

/-- Model of `JSON.parse`: `none` models a thrown `SyntaxError`.  Trailing
non-whitespace input is a syntax error, as in JS. -/
def jsonParse (s : String) : Option JsVal :=
  let cs := s.toList
  match parseVal (2 * cs.length + 2) cs with
  | some (v, rest) => if skipWs rest = [] then some v else none
  | none => none

/-! ## JS string helpers used by the controller: `split(",")`, `trim` -/

/-- `String.prototype.split(",")` at character level. -/
def splitCommaChars : List Char → List (List Char)
  | [] => [[]]
  | c :: rest =>
    match splitCommaChars rest with
    | [] => [[]]
    | g :: gs => if c = ',' then [] :: g :: gs else (c :: g) :: gs

/-- `s.split(",")` (JS semantics for a non-empty single-char separator). -/
def jsSplitComma (s : String) : List String :=
  (splitCommaChars s.toList).map String.mk

/-- Drop leading JS whitespace characters. -/
def dropLeadingWs : List Char → List Char
  | [] => []
  | c :: rest => if isWsChar c then dropLeadingWs rest else c :: rest

/-- `s.trim()`: strip leading and trailing whitespace. -/
def jsTrim (s : String) : String :=
  String.mk ((dropLeadingWs (dropLeadingWs s.toList.reverse).reverse))

/-- `ids.join(",")` at character level. -/
def joinCommaChars : List (List Char) → List Char
  | [] => []
  | g :: [] => g
  | g :: g2 :: gs => g ++ ',' :: joinCommaChars (g2 :: gs)

/-- `ids.join(",")`. -/
def jsJoinComma (ids : List String) : String :=
  String.mk (joinCommaChars (ids.map String.toList))

/-! ## Domain data model (`@wdi-website/domain`, as used by the controller) -/

/-- `ArticleStatus` (`dto/news`). -/
inductive ArticleStatus where
  | draft
  | published
  | archived
deriving DecidableEq

/-- `UserRole`. -/
inductive UserRole where
  | author
  | editor
  | admin
deriving DecidableEq

/-- `User` as resolved by the `@AuthenticatedUser()` decorator. -/
structure User where
  id : String
  email : String
  role : UserRole

/-- `IFile` metadata record (timestamps elided: the controller only ever
stamps them with the current wall-clock time and never reads them back). -/
structure IFile where
  id : String
  url : String
  filename : String
  mimetype : String
  size : Nat
  path : String
deriving DecidableEq

/-- `ITag`.  The `id`/`name`/`nameAr` fields hold runtime values: the create
flow stores parsed JSON field values in them, and the update flow builds bare
`{ id }` placeholder tags whose ids come from `parseArrayField` output. -/
structure ITag where
  id : JsVal
  name : JsVal
  nameAr : JsVal

/-- `Article` as consumed by the controller.  `tags`/`images`/`videos` are
plain lists: everywhere the controller reads them it guards with `|| []`, so
an absent list is observationally the empty list. -/
structure Article where
  id : String
  title : String
  titleAr : String
  content : Option String
  contentAr : Option String
  summary : Option String
  summaryAr : Option String
  authorId : String
  authorEmail : String
  categoryId : Option String
  status : ArticleStatus
  tags : List ITag
  images : List IFile
  videos : List IFile
  featuredMedia : Option IFile

/-- Result of `IFileUploader.uploadFile`: `{ id, url, path? }`. -/
structure UpFile where
  id : String
  url : String
  path : Option String

/-- An uploader record appended to a command as-is by the update flow (the
source pushes the raw `uploadFile` result, which lacks the
filename/mimetype/size fields; they are modelled as defaults). -/
def rawFile (u : UpFile) : IFile :=
  { id := u.id, url := u.url, filename := "", mimetype := "", size := 0,
    path := u.path.getD "" }

/-- A multipart file as delivered by Multer; `buffer` is the optional byte
payload (`none` models an absent buffer — JS `undefined`). -/
structure MFile where
  originalname : String
  mimetype : String
  size : Nat
  buffer : Option String

/-- `CreateArticleCommand` (skeleton: media and tags start empty). -/
structure CreateArticleCommand where
  title : String
  titleAr : String
  content : String
  contentAr : String
  summary : String
  summaryAr : String
  authorId : String
  authorEmail : String
  categoryId : String
  status : ArticleStatus
  images : List IFile := []
  videos : List IFile := []
  featuredMedia : Option IFile := none
  featuredMediaId : Option String := none
  tags : List ITag := []

/-- `UpdateArticleCommand`; `none` models a field left `undefined` (the
create flow issues partial update commands holding only some fields). -/
structure UpdateArticleCommand where
  id : String
  title : Option String := none
  titleAr : Option String := none
  content : Option String := none
  contentAr : Option String := none
  summary : Option String := none
  summaryAr : Option String := none
  categoryId : Option String := none
  images : Option (List IFile) := none
  videos : Option (List IFile) := none
  tags : Option (List ITag) := none
  tagsToRemove : Option (List JsVal) := none
  featuredMedia : Option IFile := none
  featuredMediaId : Option String := none

/-! ## Error model -/

/-- The HTTP error taxonomy raised by the controller. -/
inductive ErrKind where
  | unauthorized
  | forbidden
  | notFound
  | badRequest
  | internal
deriving DecidableEq

/-- An error thrown inside a handler: a Nest `HttpException` of some kind, a
JS `TypeError` (null/undefined dereference), or a generic `Error` thrown by a
collaborator.  All of them satisfy `instanceof Error` and carry a message. -/
inductive JsErr where
  | http (kind : ErrKind) (msg : String)
  | typeError (msg : String)
  | jsError (msg : String)
deriving DecidableEq

/-- `error.message`. -/
def JsErr.message : JsErr → String
  | .http _ m => m
  | .typeError m => m
  | .jsError m => m

/-- The error finally surfaced to the HTTP caller. -/
structure HttpErr where
  kind : ErrKind
  msg : String
deriving DecidableEq

/-- The error kind of a surfaced result, if any. -/
def errKind {α : Type} : Except HttpErr α → Option ErrKind
  | .error e => some e.kind
  | .ok _ => none

/-! ## Tolerant field parsing -/

/-- Whole-string `JSON.parse`, retried once with the raw string wrapped in
brackets (the create flow's recovery for slightly malformed tag JSON,
`create` lines 402-410). -/
def tolerantTagParse (s : String) : Option JsVal :=
  match jsonParse s with
  | some v => some v
  | none => jsonParse ("[" ++ s ++ "]")

/-- The per-element validation `if (!tagData.name) throw ...` of the create
flow.  A `null` element makes the property read itself throw a `TypeError`;
otherwise a falsy `name` raises the "Each tag must have a name"
`BadRequestException`. -/
def checkTagName (td : JsVal) : Except JsErr Unit :=
  match td with
  | .null => .error (.typeError "Cannot read properties of null (reading name)")
  | .undefined => .error (.typeError "Cannot read properties of undefined (reading name)")
  | _ =>
    if (td.getField "name").truthy then .ok ()
    else .error (.http .badRequest "Each tag must have a name")

/-- `parsedTags.forEach(...)`: first failing element aborts. -/
def validateTags : List JsVal → Except JsErr Unit
  | [] => .ok ()
  | td :: rest =>
    match checkTagName td with
    | .error e => .error e
    | .ok _ => validateTags rest

/-- `Array.isArray(parsed) ? parsed : [parsed]`. -/
def autowrap : JsVal → List JsVal
  | .arr xs => xs
  | v => [v]

/-- The create flow's inline-tags parsing (`create` lines 401-427): an empty
or absent `dto.tags` is skipped (falsy); otherwise whole-string `JSON.parse`
is attempted, then retried with the input wrapped in brackets; if both throw
`SyntaxError` the caught error becomes the "Invalid JSON format for tags"
`BadRequestException`; a parsed non-array is autowrapped into a one-element
array; finally every element must have a truthy `name`. -/
def parseTagsField (tags : Option String) : Except JsErr (List JsVal) :=
  match tags with
  | none => .ok []
  | some s =>
    if s = "" then .ok []
    else
      match tolerantTagParse s with
      | none => .error (.http .badRequest "Invalid JSON format for tags")
      | some v =>
        match validateTags (autowrap v) with
        | .error e => .error e
        | .ok _ => .ok (autowrap v)

/-- The runtime shape of `dto.tagIds` (`string | string[] | undefined`). -/
inductive TagIdsInput where
  | absent
  | arr (ids : List String)
  | str (s : String)

/-- The create flow's `tagIds` handling (`create` lines 429-439): an array is
used directly; a non-empty string is split on commas and each piece trimmed;
an absent or empty-string field (falsy) leaves the list empty. -/
def parseTagIdsField : TagIdsInput → List String
  | .absent => []
  | .arr ids => ids
  | .str s =>
    if s = "" then []
    else (jsSplitComma s).map jsTrim

/-- One-level `Array.prototype.flat()`. -/
def flat1 : List JsVal → List JsVal
  | [] => []
  | .arr ys :: rest => ys ++ flat1 rest
  | v :: rest => v :: flat1 rest

/-- `.flat().filter(item => item !== null && item !== undefined)`. -/
def flattenFilter (xs : List JsVal) : List JsVal :=
  (flat1 xs).filter (fun v =>
    match v with
    | .null => false
    | .undefined => false
    | _ => true)

/-- `parseArrayField` (lines 1035-1070), used by the update flow for
`removedImages` / `removedVideos` / `removedTags` / `tags`: a falsy value
yields `[]`; a real array is flattened one level with nullish entries
dropped; a string is JSON-parsed whole — an array result is flattened and
filtered, a truthy scalar is wrapped, a falsy scalar yields `[]` — and if
`JSON.parse` throws, the string is split on commas, entries trimmed, and
empty entries dropped.  Any other value yields `[]`.  (The outer try/catch
of the source is unreachable: nothing after the guarded `JSON.parse` can
throw.) -/
def parseArrayField (value : JsVal) : List JsVal :=
  if ¬ value.truthy then []
  else
    match value with
    | .arr xs => flattenFilter xs
    | .str s =>
      match jsonParse s with
      | some (.arr xs) => flattenFilter xs
      | some v => if v.truthy then [v] else []
      | none => (((jsSplitComma s).map jsTrim).filter (fun x => x ≠ "")).map JsVal.str
    | _ => []

/-! ## Collaborator environment and effect traces -/

/-- A side-effecting call issued by a handler, in program order.
`execDelete`'s flag records whether the delete use-case succeeded;
`deleteFile`'s flag records whether the (always best-effort) file deletion
succeeded. -/
inductive Effect where
  | createArticle (id : String)
  | tagFindById (tagId : String)
  | tagCreate (tagId : String)
  | execUpdate (cmd : UpdateArticleCommand)
  | upload (filename : String)
  | execDelete (id : String) (ok : Bool)
  | deleteFile (fileId : JsVal) (ok : Bool)

/-- Oracles for the injected collaborators: each field fixes the outcome the
corresponding external call would have in one execution.  `Except String`
errors model thrown collaborator `Error`s (carrying `error.message`). -/
structure Env where
  /-- `createArticleUsecase.execute`: error, or the id of the persisted
  skeleton article. -/
  createOutcome : CreateArticleCommand → Except String String
  /-- `tagRepository.findById` (null = tag unknown). -/
  tagFind : String → Except String (Option ITag)
  /-- `tagRepository.create`, keyed by the fresh tag id. -/
  tagCreateOutcome : String → Except String Unit
  /-- successive `crypto.randomUUID()` results. -/
  freshTagIds : Nat → String
  /-- `fileUploader.uploadFile`, keyed by the original filename. -/
  uploadOutcome : String → Except String UpFile
  /-- `updateArticleUsecase.execute`. -/
  updateOutcome : UpdateArticleCommand → Except String Unit
  /-- `getArticleByIdQuery.execute` (null = no such article). -/
  fetchById : String → Option Article
  /-- `deleteArticleUsecase.execute`. -/
  deleteArticleOutcome : String → Except String Unit
  /-- `fileService.deleteFile` success flag (all its call sites swallow
  failures, so only the flag is observable, in the trace). -/
  deleteFileOutcome : JsVal → Bool

/-- Interpretation of a trace on a store of persisted article ids: the
skeleton persist adds an id, a successful article delete removes it, and no
other controller effect touches article persistence. -/
def applyEffect (store : List String) : Effect → List String
  | .createArticle aid => aid :: store
  | .execDelete aid true => store.erase aid
  | _ => store

/-- Run a whole trace over a store of persisted article ids. -/
def applyTrace (tr : List Effect) (store : List String) : List String :=
  tr.foldl applyEffect store

/-- Effects that neither persist nor delete an article row. -/
def Effect.benign : Effect → Bool
  | .createArticle _ => false
  | .execDelete _ _ => false
  | _ => true

/-! ## The create endpoint (`POST /admin/articles`) -/

/-- `CreateArticleDto` after Nest validation: content fields are strings (the
DTO constructor defaults them to `""`), `status` may be absent. -/
structure CreateArticleDto where
  title : String := ""
  titleAr : String := ""
  content : String := ""
  contentAr : String := ""
  summary : String := ""
  summaryAr : String := ""
  categoryId : String := ""
  status : Option ArticleStatus := none
  tags : Option String := none
  tagIds : TagIdsInput := .absent

/-- The three multipart file groups of `create`/`update`; `none` models a
group absent from the request (JS `undefined`). -/
structure FileGroups where
  featuredMedia : Option (List MFile) := none
  images : Option (List MFile) := none
  videos : Option (List MFile) := none

/-- `[UserRole.AUTHOR, UserRole.ADMIN, UserRole.EDITOR].includes(user.role)`. -/
def roleAllowedCreate (r : UserRole) : Bool :=
  r = .author ∨ r = .admin ∨ r = .editor

/-- The skeleton `CreateArticleCommand` (no tags, no media). -/
def mkCreateCommand (dto : CreateArticleDto) (u : User) : CreateArticleCommand :=
  { title := dto.title, titleAr := dto.titleAr, content := dto.content,
    contentAr := dto.contentAr, summary := dto.summary, summaryAr := dto.summaryAr,
    authorId := u.id, authorEmail := u.email, categoryId := dto.categoryId,
    status := dto.status.getD .draft }

/-- Resolution of the caller-supplied existing tag ids (`create` lines
467-478): every id is looked up and an unknown id raises the
"Tag with ID ... not found" `BadRequestException`.  (The source issues the
lookups via `Promise.all`; the first rejection wins, modelled in order.) -/
def resolveExistingTags (env : Env) : List String → Except JsErr (List ITag) × List Effect
  | [] => (.ok [], [])
  | tid :: rest =>
    match env.tagFind tid with
    | .error m => (.error (.jsError m), [.tagFindById tid])
    | .ok none =>
      (.error (.http .badRequest ("Tag with ID " ++ tid ++ " not found")), [.tagFindById tid])
    | .ok (some t) =>
      let p := resolveExistingTags env rest
      (p.1.map (t :: ·), .tagFindById tid :: p.2)

/-- Creation of the inline tags (`create` lines 481-498): each spec gets a
fresh uuid and is persisted through the tag repository. -/
def createNewTags (env : Env) : Nat → List JsVal → Except JsErr (List ITag) × List Effect
  | _, [] => (.ok [], [])
  | k, td :: rest =>
    let tid := env.freshTagIds k
    let t : ITag := ⟨.str tid, td.getField "name", td.getField "nameAr"⟩
    match env.tagCreateOutcome tid with
    | .error m => (.error (.jsError m), [.tagCreate tid])
    | .ok _ =>
      let p := createNewTags env (k + 1) rest
      (p.1.map (t :: ·), .tagCreate tid :: p.2)

/-- One `updateArticleUsecase.execute(cmd)` call of the create flow: the
call is issued (traced) and a thrown collaborator error propagates. -/
def execUpdateStep (env : Env) (cmd : UpdateArticleCommand) :
    Except JsErr Unit × List Effect :=
  match env.updateOutcome cmd with
  | .error m => (.error (.jsError m), [.execUpdate cmd])
  | .ok _ => (.ok (), [.execUpdate cmd])

/-- Featured-media step of the create flow (lines 509-536): only runs when
the group is a non-empty array whose first file has a byte payload; the
uploaded record is attached through a partial update command. -/
def createFeaturedStep (env : Env) (aid : String) (files : FileGroups) :
    Except JsErr Unit × List Effect :=
  match files.featuredMedia with
  | some (f :: _) =>
    if f.buffer.isSome then
      match env.uploadOutcome f.originalname with
      | .error m => (.error (.jsError m), [.upload f.originalname])
      | .ok u =>
        let fm : IFile := ⟨u.id, u.url, f.originalname, f.mimetype, f.size, u.path.getD ""⟩
        let p := execUpdateStep env
          { id := aid, featuredMedia := some fm, featuredMediaId := some u.id }
        (p.1, .upload f.originalname :: p.2)
    else (.ok (), [])
  | _ => (.ok (), [])

/-- Image/video upload loop of the create flow (lines 538-584): a file with
no byte payload is skipped with `continue` (no upload call, no error); for
the rest an `IFile` record is built from the uploader's result plus the
file's own name/mimetype/size. -/
def createUploadLoop (env : Env) : List MFile → Except JsErr (List IFile) × List Effect
  | [] => (.ok [], [])
  | f :: rest =>
    match f.buffer with
    | none => createUploadLoop env rest
    | some _ =>
      match env.uploadOutcome f.originalname with
      | .error m => (.error (.jsError m), [.upload f.originalname])
      | .ok u =>
        let rec2 : IFile := ⟨u.id, u.url, f.originalname, f.mimetype, f.size, u.path.getD ""⟩
        let p := createUploadLoop env rest
        (p.1.map (rec2 :: ·), .upload f.originalname :: p.2)

/-- Lines 500-506: attach the resolved tags through a partial update — only
when there are any. -/
def tagsUpdateStep (env : Env) (aid : String) (allTags : List ITag) :
    Except JsErr Unit × List Effect :=
  if allTags.isEmpty then (.ok (), [])
  else execUpdateStep env { id := aid, tags := some allTags }

/-- Lines 586-593: attach the uploaded images/videos through a partial
update — only when at least one was uploaded. -/
def mediaUpdateStep (env : Env) (aid : String) (imgs vids : List IFile) :
    Except JsErr Unit × List Effect :=
  if imgs.isEmpty ∧ vids.isEmpty then (.ok (), [])
  else execUpdateStep env { id := aid, images := some imgs, videos := some vids }

/-- The inner `try` of the create flow (lines 463-599): everything after the
skeleton article has been persisted — tag resolution, tag persistence, the
tags update, featured/image/video uploads, the media update, and the final
re-fetch (whose `mapToDisplayDto` dereferences the result, throwing a
`TypeError` when the re-fetch comes back empty). -/
def createInner (env : Env) (aid : String) (ptagIds : List String) (ptags : List JsVal)
    (files : FileGroups) : Except JsErr Article × List Effect :=
  let p1 := resolveExistingTags env ptagIds
  match p1.1 with
  | .error e => (.error e, p1.2)
  | .ok exTags =>
    let p2 := createNewTags env 0 ptags
    match p2.1 with
    | .error e => (.error e, p1.2 ++ p2.2)
    | .ok newTags =>
      let p3 := tagsUpdateStep env aid (exTags ++ newTags)
      match p3.1 with
      | .error e => (.error e, p1.2 ++ p2.2 ++ p3.2)
      | .ok _ =>
        let p4 := createFeaturedStep env aid files
        match p4.1 with
        | .error e => (.error e, p1.2 ++ p2.2 ++ p3.2 ++ p4.2)
        | .ok _ =>
          let p5 := createUploadLoop env (files.images.getD [])
          match p5.1 with
          | .error e => (.error e, p1.2 ++ p2.2 ++ p3.2 ++ p4.2 ++ p5.2)
          | .ok imgs =>
            let p6 := createUploadLoop env (files.videos.getD [])
            match p6.1 with
            | .error e => (.error e, p1.2 ++ p2.2 ++ p3.2 ++ p4.2 ++ p5.2 ++ p6.2)
            | .ok vids =>
              let p7 := mediaUpdateStep env aid imgs vids
              let tAll := p1.2 ++ p2.2 ++ p3.2 ++ p4.2 ++ p5.2 ++ p6.2 ++ p7.2
              match p7.1 with
              | .error e => (.error e, tAll)
              | .ok _ =>
                match env.fetchById aid with
                | none =>
                  (.error (.typeError "Cannot read properties of undefined (reading id)"), tAll)
                | some a => (.ok a, tAll)

/-- The outer `catch` of the create flow (lines 610-617): every error —
including the authorization exceptions thrown at the top of the handler — is
re-wrapped into a `BadRequestException` with the original message appended. -/
def createWrap (e : JsErr) : HttpErr :=
  ⟨.badRequest, "Failed to create article: " ++ e.message⟩

/-- `create` (lines 360-618): auth checks, tolerant tag parsing, skeleton
persist, then the inner phase; an inner failure triggers the compensating
skeleton delete before the "Failed to upload files" `BadRequestException`
is raised (itself re-wrapped by the outer catch).  A throwing compensating
delete escapes to the outer catch unwrapped.  (The unreachable
files-are-strings guards of lines 382-396 have no counterpart: the file
groups are well-typed here.) -/
def create (env : Env) (dto : CreateArticleDto) (files : FileGroups)
    (user? : Option User) : Except HttpErr Article × List Effect :=
  match user? with
  | none => (.error (createWrap (.http .unauthorized "Authentication required")), [])
  | some u =>
    if ¬ roleAllowedCreate u.role then
      (.error (createWrap (.http .forbidden "You are not authorized to perform this action.")), [])
    else
      match parseTagsField dto.tags with
      | .error e => (.error (createWrap e), [])
      | .ok ptags =>
        let ptagIds := parseTagIdsField dto.tagIds
        match env.createOutcome (mkCreateCommand dto u) with
        | .error m => (.error (createWrap (.jsError m)), [])
        | .ok aid =>
          let p := createInner env aid ptagIds ptags files
          match p.1 with
          | .ok art => (.ok art, .createArticle aid :: p.2)
          | .error e =>
            match env.deleteArticleOutcome aid with
            | .ok _ =>
              (.error (createWrap (.http .badRequest ("Failed to upload files: " ++ e.message))),
               .createArticle aid :: p.2 ++ [.execDelete aid true])
            | .error m =>
              (.error (createWrap (.jsError m)),
               .createArticle aid :: p.2 ++ [.execDelete aid false])

/-! ## The update endpoint (`PATCH /admin/articles/:id`) -/

/-- `UpdateArticleDto`: optional scalar fields plus the four untyped
array-ish fields handed to `parseArrayField` (`.undefined` models an absent
field). -/
structure UpdateArticleDto where
  title : Option String := none
  titleAr : Option String := none
  content : Option String := none
  contentAr : Option String := none
  summary : Option String := none
  summaryAr : Option String := none
  categoryId : Option String := none
  removedImages : JsVal := .undefined
  removedVideos : JsVal := .undefined
  removedTags : JsVal := .undefined
  tags : JsVal := .undefined

/-- Lines 1112-1129 of `update`, in source order: fetch result in hand, the
missing-user check runs first; then the author-ownership check dereferences
the fetched value (a `TypeError` when the article was not found and the
caller is an AUTHOR); only then comes the `if (!existingArticle)` null check
raising `NotFoundException`. -/
def updateAuthPhase (existing? : Option Article) (user? : Option User) :
    Except JsErr Article :=
  match user? with
  | none => .error (.http .unauthorized "Authentication required")
  | some u =>
    if u.role = .author then
      match existing? with
      | none => .error (.typeError "Cannot read properties of null (reading authorId)")
      | some art =>
        if art.authorId ≠ u.id then
          .error (.http .forbidden "Only the author owner can update this article")
        else .ok art
    else
      match existing? with
      | none => .error (.http .notFound "Article not found")
      | some art => .ok art

/-- The best-effort removed-file deletions (lines 1138-1153): one
`deleteFile` call per removed image/video id, every failure swallowed. -/
def deleteFilesStep (env : Env) (ids : List JsVal) : List Effect :=
  ids.map (fun fid => .deleteFile fid (env.deleteFileOutcome fid))

/-- Featured-media step of the update flow (lines 1156-1172): when a
featured file is present it is uploaded **without any buffer check**; on
success the old featured media, if any, is deleted best-effort. -/
def updateFeaturedStep (env : Env) (art : Article) (files : FileGroups) :
    Except JsErr (Option UpFile) × List Effect :=
  match files.featuredMedia with
  | some (f :: _) =>
    match env.uploadOutcome f.originalname with
    | .error m => (.error (.jsError m), [.upload f.originalname])
    | .ok u =>
      match art.featuredMedia with
      | some old =>
        (.ok (some u),
         [.upload f.originalname, .deleteFile (.str old.id) (env.deleteFileOutcome (.str old.id))])
      | none => (.ok (some u), [.upload f.originalname])
  | _ => (.ok none, [])

/-- New-upload fan-out of the update flow (lines 1174-1197): every file in
the group is uploaded — there is no buffer check and no skipping — and the
raw uploader records are collected; the first failure aborts the batch. -/
def uploadAllRaw (env : Env) : List MFile → Except JsErr (List IFile) × List Effect
  | [] => (.ok [], [])
  | f :: rest =>
    match env.uploadOutcome f.originalname with
    | .error m => (.error (.jsError m), [.upload f.originalname])
    | .ok u =>
      let p := uploadAllRaw env rest
      (p.1.map (rawFile u :: ·), .upload f.originalname :: p.2)

/-- The file-merge rule of the update flow (lines 1222-1233): existing files
whose id occurs in the removal list are filtered out (order preserved), then
the newly uploaded files are appended in upload order. -/
def mergeFiles (existing : List IFile) (removedIds : List JsVal) (uploaded : List IFile) :
    List IFile :=
  existing.filter (fun f => ¬ includesVal removedIds (.str f.id)) ++ uploaded

/-- The tag-merge rule (lines 1199-1210): existing tags minus the removed
ids, plus bare `{ id }` placeholder tags for incoming ids not already
present. -/
def mergeTags (existingTags : List ITag) (removedTagIds : List JsVal) (tagIds : List JsVal) :
    List ITag :=
  existingTags.filter (fun t => ¬ includesVal removedTagIds t.id) ++
    (tagIds.filter (fun tid => ¬ existingTags.any (fun t => jsStrictEq t.id tid))).map
      (fun tid => ⟨tid, .undefined, .undefined⟩)

/-- The `UpdateArticleCommand` assembled at lines 1213-1238. -/
def buildUpdateCommand (id : String) (dto : UpdateArticleDto) (art : Article)
    (removedImageIds removedVideoIds removedTagIds tagIds : List JsVal)
    (upImgs upVids : List IFile) (fm? : Option UpFile) : UpdateArticleCommand :=
  { id := id, title := dto.title, titleAr := dto.titleAr, content := dto.content,
    contentAr := dto.contentAr, summary := dto.summary, summaryAr := dto.summaryAr,
    categoryId := dto.categoryId,
    images := some (mergeFiles art.images removedImageIds upImgs),
    videos := some (mergeFiles art.videos removedVideoIds upVids),
    tags := some (mergeTags art.tags removedTagIds tagIds),
    tagsToRemove := some removedTagIds,
    featuredMedia := fm?.map rawFile,
    featuredMediaId := fm?.map (·.id) }

/-- The `try` body of `update` (lines 1112-1245). -/
def updateInner (env : Env) (id : String) (dto : UpdateArticleDto) (files : FileGroups)
    (user? : Option User) : Except JsErr Article × List Effect :=
  match updateAuthPhase (env.fetchById id) user? with
  | .error e => (.error e, [])
  | .ok art =>
    let removedImageIds := parseArrayField dto.removedImages
    let removedVideoIds := parseArrayField dto.removedVideos
    let removedTagIds := parseArrayField dto.removedTags
    let tagIds := parseArrayField dto.tags
    let tDel := deleteFilesStep env (removedImageIds ++ removedVideoIds)
    let pF := updateFeaturedStep env art files
    match pF.1 with
    | .error e => (.error e, tDel ++ pF.2)
    | .ok fm? =>
      let pI := uploadAllRaw env (files.images.getD [])
      match pI.1 with
      | .error e => (.error e, tDel ++ pF.2 ++ pI.2)
      | .ok upImgs =>
        let pV := uploadAllRaw env (files.videos.getD [])
        match pV.1 with
        | .error e => (.error e, tDel ++ pF.2 ++ pI.2 ++ pV.2)
        | .ok upVids =>
          let cmd := buildUpdateCommand id dto art removedImageIds removedVideoIds
            removedTagIds tagIds upImgs upVids fm?
          match env.updateOutcome cmd with
          | .error m => (.error (.jsError m), tDel ++ pF.2 ++ pI.2 ++ pV.2 ++ [.execUpdate cmd])
          | .ok _ =>
            match env.fetchById id with
            | none =>
              (.error (.typeError "Cannot read properties of null (reading id)"),
               tDel ++ pF.2 ++ pI.2 ++ pV.2 ++ [.execUpdate cmd])
            | some a => (.ok a, tDel ++ pF.2 ++ pI.2 ++ pV.2 ++ [.execUpdate cmd])

/-- `update` (lines 1101-1257): its catch-all converts **every** thrown
error — authorization failures, `NotFoundException`, `TypeError`s and
collaborator errors alike — into a `BadRequestException` wrapping the
original message. -/
def update (env : Env) (id : String) (dto : UpdateArticleDto) (files : FileGroups)
    (user? : Option User) : Except HttpErr Article × List Effect :=
  let p := updateInner env id dto files user?
  match p.1 with
  | .ok a => (.ok a, p.2)
  | .error e => (.error ⟨.badRequest, "Failed to update article: " ++ e.message⟩, p.2)

/-! ## The delete endpoint (`DELETE /admin/articles/:id`) -/

/-- The best-effort file-deletion calls a draft delete issues (lines
1295-1340): featured media first, then each image, then each video. -/
def draftFileDeletions (env : Env) (art : Article) : List Effect :=
  (match art.featuredMedia with
   | some fm => [Effect.deleteFile (.str fm.id) (env.deleteFileOutcome (.str fm.id))]
   | none => []) ++
  art.images.map (fun f => Effect.deleteFile (.str f.id) (env.deleteFileOutcome (.str f.id))) ++
  art.videos.map (fun f => Effect.deleteFile (.str f.id) (env.deleteFileOutcome (.str f.id)))

/-- `delete` (lines 1275-1353): associated files are deleted (best-effort)
only when the article's status is `draft`; the article row is then deleted
unconditionally.  The catch rethrows `NotFoundException` verbatim and turns
everything else — the authorization failures included — into an
internal-server `HttpException`. -/
def deleteArticle (env : Env) (id : String) (user? : Option User) :
    Except HttpErr Unit × List Effect :=
  let inner : Except JsErr Unit × List Effect :=
    match user? with
    | none => (.error (.http .unauthorized "Authentication required"), [])
    | some u =>
      if ¬ (u.role = .admin ∨ u.role = .editor) then
        (.error (.http .forbidden "You are not authorized to perform this action."), [])
      else
        match env.fetchById id with
        | none => (.error (.http .notFound "Article not found"), [])
        | some art =>
          let tFiles := if art.status = .draft then draftFileDeletions env art else []
          match env.deleteArticleOutcome id with
          | .error m => (.error (.jsError m), tFiles ++ [.execDelete id false])
          | .ok _ => (.ok (), tFiles ++ [.execDelete id true])
  match inner.1 with
  | .ok _ => (.ok (), inner.2)
  | .error (.http .notFound m) => (.error ⟨.notFound, m⟩, inner.2)
  | .error _ =>
    (.error ⟨.internal, "Failed to delete article and associated files"⟩, inner.2)

/-! ## The list endpoint (`GET /admin/articles`) -/

/-- `ListArticlesDto` query parameters. -/
structure ListArticlesDto where
  page : Nat := 1
  limit : Nat := 10
  sortBy : Option String := none
  sortOrder : Option String := none
  categoryId : Option String := none
  tagId : Option String := none
  status : Option ArticleStatus := none
  authorId : Option String := none

/-- The filter set handed to the list use-case (the source builds a
placeholder tag entity from `tagId`; only the id is meaningful). -/
structure ArticleFilters where
  categoryId : Option String := none
  tagId : Option String := none
  status : Option ArticleStatus := none
  authorId : Option String := none

/-- The query given to `listArticlesUsecase.execute`. -/
structure ListQuery where
  page : Nat
  limit : Nat
  sortBy : Option String
  sortOrder : Option String
  filters : ArticleFilters

/-- The use-case's paginated result. -/
structure ListResult where
  data : List Article
  total : Nat
  totalPages : Nat

/-- JS truthiness of an optional string field (`""` is falsy). -/
def optTruthy : Option String → Bool
  | some s => s ≠ ""
  | none => false

/-- `Math.ceil(total / limit)` for a positive `limit` (the JS expression
yields `Infinity` at `limit = 0`, which has no `Nat` counterpart; modelled
as `0` there — no claim touches that corner). -/
def ceilDiv (total limit : Nat) : Nat :=
  if limit = 0 then 0 else (total + limit - 1) / limit

/-- `list` (lines 632-719): AUTHORs may not request another author's id
(`Forbidden`) and are force-filtered — including a post-query double check
that drops foreign articles and recomputes the metadata.  The catch rethrows
`Unauthorized`/`Forbidden`/`BadRequest` verbatim and wraps anything else into
an `InternalServerError`. -/
def list (listUsecase : ListQuery → Except String ListResult)
    (dto : ListArticlesDto) (user? : Option User) : Except HttpErr ListResult :=
  let inner : Except JsErr ListResult :=
    match user? with
    | none => .error (.http .unauthorized "Authentication required")
    | some u =>
      let filters : ArticleFilters :=
        { categoryId := dto.categoryId, tagId := dto.tagId, status := dto.status }
      let auth : Except JsErr ArticleFilters :=
        if u.role = .author then
          if optTruthy dto.authorId ∧ dto.authorId ≠ some u.id then
            .error (.http .forbidden "Authors can only view their own articles")
          else .ok { filters with authorId := some u.id }
        else
          if optTruthy dto.authorId then .ok { filters with authorId := dto.authorId }
          else .ok filters
      match auth with
      | .error e => .error e
      | .ok fs =>
        match listUsecase { page := dto.page, limit := dto.limit, sortBy := dto.sortBy,
                            sortOrder := dto.sortOrder, filters := fs } with
        | .error m => .error (.jsError m)
        | .ok r =>
          if u.role = .author then
            let data := r.data.filter (fun a => a.authorId = u.id)
            .ok { data := data, total := data.length,
                  totalPages := ceilDiv data.length dto.limit }
          else .ok r
  match inner with
  | .ok r => .ok r
  | .error (.http .unauthorized m) => .error ⟨.unauthorized, m⟩
  | .error (.http .forbidden m) => .error ⟨.forbidden, m⟩
  | .error (.http .badRequest m) => .error ⟨.badRequest, m⟩
  | .error _ => .error ⟨.internal, "Failed to fetch articles"⟩

/-! ## The get-by-id endpoint (`GET /admin/articles/:id`) -/

/-- `findById` (lines 866-951): missing user → `Unauthorized`; empty fetch →
`NotFound`; an AUTHOR fetching somebody else's article → `Forbidden`;
otherwise the article is returned (the related-articles projection is pure
presentation and is elided).  The catch rethrows
`Unauthorized`/`NotFound`/`Forbidden` verbatim and wraps anything else into
an `InternalServerError`. -/
def findById (env : Env) (id : String) (user? : Option User) : Except HttpErr Article :=
  let inner : Except JsErr Article :=
    match user? with
    | none => .error (.http .unauthorized "Authentication required")
    | some u =>
      match env.fetchById id with
      | none => .error (.http .notFound "Article not found")
      | some art =>
        if u.role = .author ∧ art.authorId ≠ u.id then
          .error (.http .forbidden "You are not authorized to access this article.")
        else .ok art
  match inner with
  | .ok a => .ok a
  | .error (.http .unauthorized m) => .error ⟨.unauthorized, m⟩
  | .error (.http .notFound m) => .error ⟨.notFound, m⟩
  | .error (.http .forbidden m) => .error ⟨.forbidden, m⟩
  | .error _ =>
    .error ⟨.internal, "An unexpected error occurred while fetching the article"⟩

/-! ## The tag-assign endpoint (`POST /admin/articles/:id/tags`) -/

/-- `assignTags` (lines 1452-1483): the catch rethrows `BadRequestException`
verbatim but wraps every other `Error` — the authorization failures
included — into a `BadRequestException`. -/
def assignTags (assignUsecase : String → List String → Except String Unit)
    (id : String) (tagIds : List String) (user? : Option User) : Except HttpErr Unit :=
  let inner : Except JsErr Unit :=
    match user? with
    | none => .error (.http .unauthorized "Authentication required")
    | some u =>
      if ¬ (u.role = .editor ∨ u.role = .admin ∨ u.role = .author) then
        .error (.http .forbidden "You are not authorized to perform this action.")
      else
        match assignUsecase id tagIds with
        | .error m => .error (.jsError m)
        | .ok _ => .ok ()
  match inner with
  | .ok _ => .ok ()
  | .error (.http .badRequest m) => .error ⟨.badRequest, m⟩
  | .error e => .error ⟨.badRequest, "Failed to assign tags: " ++ e.message⟩

/-! ## Trace projections and concrete fixtures -/

/-- The filenames of the upload calls issued in a trace, in order. -/
def uploadCalls : List Effect → List String
  | [] => []
  | .upload n :: rest => n :: uploadCalls rest
  | _ :: rest => uploadCalls rest

/-- The file ids of the `deleteFile` calls issued in a trace, in order. -/
def fileDeleteCalls : List Effect → List JsVal
  | [] => []
  | .deleteFile fid _ :: rest => fid :: fileDeleteCalls rest
  | _ :: rest => fileDeleteCalls rest

/-- A sample draft article used by witnesses. -/
def artA : Article :=
  { id := "A1", title := "t", titleAr := "ta", content := none, contentAr := none,
    summary := none, summaryAr := none, authorId := "u1", authorEmail := "u at x",
    categoryId := none, status := .draft, tags := [], images := [], videos := [],
    featuredMedia := none }

/-- A collaborator environment where every call succeeds and `artA` is the
article behind every id. -/
def envA : Env :=
  { createOutcome := fun _ => .ok "A1",
    tagFind := fun tid => .ok (some ⟨.str tid, .str "n", .undefined⟩),
    tagCreateOutcome := fun _ => .ok (),
    freshTagIds := fun k => "uuid" ++ toString k,
    uploadOutcome := fun nm => .ok ⟨"f-" ++ nm, "u-" ++ nm, some ("p-" ++ nm)⟩,
    updateOutcome := fun _ => .ok (),
    fetchById := fun _ => some artA,
    deleteArticleOutcome := fun _ => .ok (),
    deleteFileOutcome := fun _ => true }

/-- `envA` with an empty article store: every fetch comes back null. -/
def envNone : Env := { envA with fetchById := fun _ => none }

/-- A draft article with a featured image, one gallery image and one video. -/
def artDraftFiles : Article :=
  { artA with
    images := [⟨"I1", "uI", "i.png", "image/png", 1, "pI"⟩],
    videos := [⟨"V1", "uV", "v.mp4", "video/mp4", 1, "pV"⟩],
    featuredMedia := some ⟨"F1", "uF", "f.png", "image/png", 1, "pF"⟩ }

/-- The same article, but published. -/
def artPubFiles : Article := { artDraftFiles with status := .published }

/-- Environment where fetches return the draft article with files and every
file deletion fails (best-effort path). -/
def envDraftFiles : Env :=
  { envA with fetchById := fun _ => some artDraftFiles,
              deleteFileOutcome := fun _ => false }

/-- Environment where fetches return the published article with files. -/
def envPubFiles : Env := { envDraftFiles with fetchById := fun _ => some artPubFiles }

/-- A list use-case returning an empty page. -/
def listOk : ListQuery → Except String ListResult := fun _ => .ok ⟨[], 0, 0⟩

/-- A tag-assign use-case that always succeeds. -/
def assignOk : String → List String → Except String Unit := fun _ _ => .ok ()

/-! # Theorems -/

/-- The per-tag validation never raises the JSON-format error: its errors
are the missing-name `BadRequestException` or a nullish-dereference
`TypeError`. -/
theorem checkTagName_not_format_error (td : JsVal) :
    checkTagName td ≠ .error (.http .badRequest "Invalid JSON format for tags") := by
  unfold checkTagName
  cases td <;> simp <;> split <;> simp

/-- The whole `forEach` validation never raises the JSON-format error. -/
theorem validateTags_not_format_error (xs : List JsVal) :
    validateTags xs ≠ .error (.http .badRequest "Invalid JSON format for tags") := by
  induction xs with
  | nil => simp [validateTags]
  | cons td rest ih =>
    rw [validateTags]
    rcases h : checkTagName td with e | u
    · intro hc
      injection hc with hc2
      exact checkTagName_not_format_error td (hc2 ▸ h)
    · exact ih

/-- Unfolded form of the tag parsing for a non-empty string. -/
theorem parseTagsField_eq (s : String) (hs : s ≠ "") :
    parseTagsField (some s) =
      match tolerantTagParse s with
      | none => .error (.http .badRequest "Invalid JSON format for tags")
      | some v =>
        match validateTags (autowrap v) with
        | .error e => .error e
        | .ok _ => .ok (autowrap v) := by
  rw [parseTagsField, if_neg hs]

/-- C6: the create flow's inline-tag parsing first attempts `JSON.parse` on
the whole string; if that throws it retries after wrapping the raw string in
brackets; a "Invalid JSON format for tags" `BadRequest` is raised exactly
when both attempts fail; and a successfully parsed non-array value is
autowrapped into a one-element array. -/
theorem createTagParsing_control_flow (s : String) :
    (jsonParse s = none → jsonParse ("[" ++ s ++ "]") = none →
      parseTagsField (some s) = .error (.http .badRequest "Invalid JSON format for tags"))
    ∧ (∀ v : JsVal, s ≠ "" → jsonParse s = some v → (∀ xs, v ≠ .arr xs) →
        validateTags [v] = .ok () → parseTagsField (some s) = .ok [v])
    ∧ (∀ xs : List JsVal, jsonParse s = none →
        jsonParse ("[" ++ s ++ "]") = some (.arr xs) →
        validateTags xs = .ok () → parseTagsField (some s) = .ok xs)
    ∧ (parseTagsField (some s) = .error (.http .badRequest "Invalid JSON format for tags") →
        jsonParse s = none ∧ jsonParse ("[" ++ s ++ "]") = none) := by
  refine ⟨?_, ?_, ?_, ?_⟩
  · intro h1 h2
    have hs : s ≠ "" := by
      intro he
      subst he
      have hx : jsonParse ("[" ++ "" ++ "]") = some (.arr []) := by rfl
      rw [h2] at hx
      exact Option.noConfusion hx
    rw [parseTagsField_eq s hs]
    simp only [tolerantTagParse, h1, h2]
  · intro v hs h1 hnarr hval
    have hwrap : autowrap v = [v] := by
      cases v <;> first | rfl | exact absurd rfl (hnarr _)
    rw [parseTagsField_eq s hs]
    simp only [tolerantTagParse, h1, hwrap, hval]
  · intro xs h1 h2 hval
    by_cases hs : s = ""
    · subst hs
      have hx : jsonParse ("[" ++ "" ++ "]") = some (.arr []) := by rfl
      rw [h2] at hx
      injection hx with hx2
      injection hx2 with hx3
      subst hx3
      rfl
    · rw [parseTagsField_eq s hs]
      simp only [tolerantTagParse, h1, h2, autowrap, hval]
  · intro h
    by_cases hs : s = ""
    · subst hs
      rw [parseTagsField] at h
      exact absurd h (by simp)
    · have hform := h
      rw [parseTagsField_eq s hs] at hform
      rcases h1 : jsonParse s with _ | v
      · rcases h2 : jsonParse ("[" ++ s ++ "]") with _ | w
        · exact ⟨rfl, rfl⟩
        · exfalso
          simp only [tolerantTagParse, h1, h2] at hform
          rcases hval : validateTags (autowrap w) with e2 | u
          · rw [hval] at hform
            injection hform with hform2
            exact validateTags_not_format_error _ (hform2 ▸ hval)
          · rw [hval] at hform
            exact Except.noConfusion hform
      · exfalso
        simp only [tolerantTagParse, h1] at hform
        rcases hval : validateTags (autowrap v) with e2 | u
        · rw [hval] at hform
          injection hform with hform2
          exact validateTags_not_format_error _ (hform2 ▸ hval)
        · rw [hval] at hform
          exact Except.noConfusion hform

/-- Witness for C6 on concrete inputs: malformed text fails both parse
attempts and yields the format error; a single JSON object is autowrapped;
a comma-separated pair of objects succeeds via the bracket-wrap retry. -/
theorem createTagParsing_control_flow_witness :
    parseTagsField (some "[[[") = .error (.http .badRequest "Invalid JSON format for tags")
    ∧ parseTagsField (some "\x7b\"name\":\"T\"\x7d") = .ok [.obj [("name", .str "T")]]
    ∧ parseTagsField (some "\x7b\"name\":\"a\"\x7d,\x7b\"name\":\"b\"\x7d") =
        .ok [.obj [("name", .str "a")], .obj [("name", .str "b")]] :=
  ⟨(createTagParsing_control_flow "[[[").1 (by rfl) (by rfl),
   (createTagParsing_control_flow "\x7b\"name\":\"T\"\x7d").2.1
     (.obj [("name", .str "T")]) (by decide) (by rfl) (by intro xs h; cases h) (by rfl),
   (createTagParsing_control_flow "\x7b\"name\":\"a\"\x7d,\x7b\"name\":\"b\"\x7d").2.2.1
     [.obj [("name", .str "a")], .obj [("name", .str "b")]] (by rfl) (by rfl) (by rfl)⟩

/-! ### C10: tagIds as array vs comma-separated string -/

theorem splitCommaChars_ne_nil (cs : List Char) : splitCommaChars cs ≠ [] := by
  induction cs with
  | nil => simp [splitCommaChars]
  | cons c rest ih =>
    rcases h : splitCommaChars rest with _ | ⟨g, gs⟩
    · exact absurd h ih
    · rw [splitCommaChars, h]
      split <;> (try split_ifs) <;> simp

theorem splitCommaChars_no_comma (g : List Char) (h : ',' ∉ g) :
    splitCommaChars g = [g] := by
  induction g with
  | nil => rfl
  | cons c rest ih =>
    have hc : c ≠ ',' := fun he => h (he ▸ List.mem_cons_self c rest)
    have hr : ',' ∉ rest := fun hm => h (List.mem_cons_of_mem c hm)
    rw [splitCommaChars, ih hr]
    simp [hc]

theorem splitCommaChars_append (g t : List Char) (h : ',' ∉ g) :
    splitCommaChars (g ++ ',' :: t) = g :: splitCommaChars t := by
  induction g with
  | nil =>
    simp only [List.nil_append]
    rcases hsp : splitCommaChars t with _ | ⟨x, xs⟩
    · exact absurd hsp (splitCommaChars_ne_nil t)
    · rw [splitCommaChars, hsp]
      simp
  | cons c rest ih =>
    have hc : c ≠ ',' := fun he => h (he ▸ List.mem_cons_self c rest)
    have hr : ',' ∉ rest := fun hm => h (List.mem_cons_of_mem c hm)
    simp only [List.cons_append]
    rw [splitCommaChars, ih hr]
    simp [hc]

theorem splitCommaChars_join (gs : List (List Char)) (hne : gs ≠ [])
    (h : ∀ g ∈ gs, ',' ∉ g) :
    splitCommaChars (joinCommaChars gs) = gs := by
  induction gs with
  | nil => exact absurd rfl hne
  | cons g rest ih =>
    rcases rest with _ | ⟨g2, rest2⟩
    · exact splitCommaChars_no_comma g (h g (List.mem_cons_self g []))
    · rw [joinCommaChars]
      rw [splitCommaChars_append g _ (h g (List.mem_cons_self g _))]
      rw [ih (by simp) (fun x hx => h x (List.mem_cons_of_mem g hx))]

theorem toList_mk (l : List Char) : (String.mk l).toList = l := rfl

theorem mk_toList (s : String) : String.mk s.toList = s := by
  cases s
  rfl

theorem jsSplit_join (ids : List String) (hne : ids ≠ [])
    (h : ∀ i ∈ ids, ',' ∉ i.toList) :
    jsSplitComma (jsJoinComma ids) = ids := by
  unfold jsSplitComma jsJoinComma
  rw [toList_mk, splitCommaChars_join (ids.map String.toList)
    (by simpa using hne)
    (by intro g hg
        rcases List.mem_map.mp hg with ⟨i, hi, rfl⟩
        exact h i hi)]
  rw [List.map_map]
  have : ∀ l : List String, l.map (String.mk ∘ String.toList) = l := by
    intro l
    induction l with
    | nil => rfl
    | cons x xs ihx => simp [mk_toList, ihx]
  exact this ids

theorem jsJoinComma_cons_ne_empty (i : String) (rest : List String) (hi : i ≠ "") :
    jsJoinComma (i :: rest) ≠ "" := by
  unfold jsJoinComma
  intro hcon
  have hl : joinCommaChars ((i :: rest).map String.toList) = [] := by
    have hgg := congrArg String.toList hcon
    rwa [toList_mk] at hgg
  rcases rest with _ | ⟨g2, rest2⟩
  · simp only [List.map_cons, List.map_nil, joinCommaChars] at hl
    exact hi (by rw [← mk_toList i, hl])
  · simp only [List.map_cons, joinCommaChars] at hl
    simp at hl

/-- C10 (counterexample to the claim as stated): the id `" a"` contains no
comma, yet supplying it as a real one-element array keeps the leading space
while supplying it as the joined string trims it — the two parsed lists
differ, so array and comma-joined inputs are not always equivalent. -/
theorem tagIds_comma_free_not_sufficient :
    parseTagIdsField (.arr [" a"]) = [" a"]
    ∧ jsJoinComma [" a"] = " a"
    ∧ (" a").toList.contains ',' = false
    ∧ parseTagIdsField (.str (jsJoinComma [" a"])) = ["a"]
    ∧ (" a" : String) ≠ "a" :=
  ⟨rfl, by rfl, by rfl, by rfl, by decide⟩

/-- C10 (amended): for every list of tag IDs each of which is non-empty,
contains no comma, and carries no leading/trailing whitespace, the create
flow parses the real-array form and the comma-joined-string form of the
field to the identical id list. -/
theorem tagIds_array_string_equiv (ids : List String)
    (h : ∀ i ∈ ids, i ≠ "" ∧ ',' ∉ i.toList ∧ jsTrim i = i) :
    parseTagIdsField (.arr ids) = parseTagIdsField (.str (jsJoinComma ids)) := by
  cases ids with
  | nil => rfl
  | cons i rest =>
    have hji : jsJoinComma (i :: rest) ≠ "" :=
      jsJoinComma_cons_ne_empty i rest (h i (List.mem_cons_self i rest)).1
    rw [parseTagIdsField, parseTagIdsField, if_neg hji]
    rw [jsSplit_join (i :: rest) (by simp) (fun x hx => (h x hx).2.1)]
    have hmap : (i :: rest).map jsTrim = i :: rest := by
      have hcg := List.map_congr_left (l := i :: rest) (f := jsTrim) (g := id)
        (fun x hx => (h x hx).2.2)
      simpa using hcg
    exact hmap.symm

/-- Witness for the amended C10 at a concrete input. -/
theorem tagIds_array_string_equiv_witness :
    parseTagIdsField (.arr ["a", "b"]) = parseTagIdsField (.str (jsJoinComma ["a", "b"]))
    ∧ parseTagIdsField (.arr ["a", "b"]) = ["a", "b"] :=
  ⟨tagIds_array_string_equiv ["a", "b"] (by decide), rfl⟩

/-! ### C4: how the update flow's removal lists are actually parsed -/

/-- C4 (counterexample to the claim as stated): on the string `"a,b"` the
update flow's `parseArrayField` succeeds by comma-splitting, while the
create flow's inline-tag parsing — the "same tolerant parsing" the claim
describes, whole-string `JSON.parse` then a bracket-wrap retry then a format
error — fails both parse attempts and raises the format error.  The removal
lists are therefore not parsed with the create flow's parsing: there is no
bracket-wrap retry and no format error in `parseArrayField`. -/
theorem parseArrayField_not_create_parsing :
    parseArrayField (.str "a,b") = [.str "a", .str "b"]
    ∧ tolerantTagParse "a,b" = none
    ∧ parseTagsField (some "a,b") = .error (.http .badRequest "Invalid JSON format for tags") :=
  ⟨rfl, rfl, rfl⟩

/-- C4 (amended): each removal list (and the update `tags` field) is parsed
by `parseArrayField`: a real array is flattened one level with nullish
entries dropped; a string is JSON-parsed whole — an array result is
flattened and filtered, any other result autowrapped when truthy and
dropped when falsy — and when `JSON.parse` throws, the string is split on
commas with entries trimmed and empty entries dropped; no bracket-wrap retry
is attempted and no format error is ever raised. -/
theorem parseArrayField_spec (s : String) (xs : List JsVal) (v : JsVal) :
    (parseArrayField (.arr xs) = flattenFilter xs)
    ∧ (jsonParse s = some (.arr xs) → parseArrayField (.str s) = flattenFilter xs)
    ∧ (jsonParse s = some v → (∀ ys, v ≠ .arr ys) →
        parseArrayField (.str s) = if v.truthy then [v] else [])
    ∧ (s ≠ "" → jsonParse s = none →
        parseArrayField (.str s) =
          (((jsSplitComma s).map jsTrim).filter (fun x => x ≠ "")).map JsVal.str) := by
  refine ⟨?_, ?_, ?_, ?_⟩
  · simp [parseArrayField, JsVal.truthy]
  · intro h
    have hs : s ≠ "" := by
      intro he
      subst he
      rw [show jsonParse "" = none from rfl] at h
      exact Option.noConfusion h
    simp [parseArrayField, JsVal.truthy, hs, h]
  · intro h hnarr
    have hs : s ≠ "" := by
      intro he
      subst he
      rw [show jsonParse "" = none from rfl] at h
      exact Option.noConfusion h
    cases v with
    | arr ys => exact absurd rfl (hnarr ys)
    | _ => simp [parseArrayField, JsVal.truthy, hs, h]
  · intro hs h
    simp [parseArrayField, JsVal.truthy, hs, h]

/-- Witness for the amended C4 on concrete inputs of all three accepted
shapes (array, JSON string, comma-separated string with trimming and
empty-entry dropping). -/
theorem parseArrayField_spec_witness :
    parseArrayField (.arr [.str "a", .null, .arr [.str "b"]]) = [.str "a", .str "b"]
    ∧ parseArrayField (.str "[\"a\",\"b\"]") = [.str "a", .str "b"]
    ∧ parseArrayField (.str "\"a,b\"") = [.str "a,b"]
    ∧ parseArrayField (.str "a, ,b") = [.str "a", .str "b"] := by
  refine ⟨?_, ?_, ?_, ?_⟩
  · have h := (parseArrayField_spec "" [.str "a", .null, .arr [.str "b"]] .undefined).1
    rw [h]
    rfl
  · have h := (parseArrayField_spec "[\"a\",\"b\"]" [.str "a", .str "b"] .undefined).2.1 (by rfl)
    rw [h]
    rfl
  · have h := (parseArrayField_spec "\"a,b\"" [] (.str "a,b")).2.2.1 (by rfl)
      (by intro ys hy; cases hy)
    rw [h]
    rfl
  · have h := (parseArrayField_spec "a, ,b" [] .undefined).2.2.2 (by decide) (by rfl)
    rw [h]
    rfl

/-! ### C5: the update flow's image/video merge rule -/

/-- C5: in the update command, the merged sequence is the existing files
with those whose id is in the removal list filtered out, in original order,
followed by the newly uploaded files in upload order — instantiated at the
spec's shape (existing `[A, B, C]`, removals `[A, B]`, upload `[D]` gives
exactly `[C, D]`) — and `buildUpdateCommand` applies this same `mergeFiles`
rule to both the image and the video sequence. -/
theorem update_merge_rule (A B C D : IFile)
    (hCA : C.id ≠ A.id) (hCB : C.id ≠ B.id) :
    mergeFiles [A, B, C] [.str A.id, .str B.id] [D] = [C, D]
    ∧ ∀ (i : String) (dto : UpdateArticleDto) (art : Article)
        (remI remV remT tagIds : List JsVal) (upI upV : List IFile) (fm? : Option UpFile),
        (buildUpdateCommand i dto art remI remV remT tagIds upI upV fm?).images =
          some (mergeFiles art.images remI upI)
        ∧ (buildUpdateCommand i dto art remI remV remT tagIds upI upV fm?).videos =
          some (mergeFiles art.videos remV upV) := by
  constructor
  · simp [mergeFiles, includesVal, jsStrictEq, Ne.symm hCA, Ne.symm hCB]
  · intro i dto art remI remV remT tagIds upI upV fm?
    exact ⟨rfl, rfl⟩

/-- Witness for C5 at concrete files. -/
theorem update_merge_rule_witness :
    mergeFiles
      [⟨"A", "uA", "a.png", "image/png", 1, "pA"⟩,
       ⟨"B", "uB", "b.png", "image/png", 1, "pB"⟩,
       ⟨"C", "uC", "c.png", "image/png", 1, "pC"⟩]
      [.str "A", .str "B"]
      [⟨"D", "uD", "d.png", "image/png", 1, "pD"⟩] =
      [⟨"C", "uC", "c.png", "image/png", 1, "pC"⟩,
       ⟨"D", "uD", "d.png", "image/png", 1, "pD"⟩] :=
  (update_merge_rule
    ⟨"A", "uA", "a.png", "image/png", 1, "pA"⟩
    ⟨"B", "uB", "b.png", "image/png", 1, "pB"⟩
    ⟨"C", "uC", "c.png", "image/png", 1, "pC"⟩
    ⟨"D", "uD", "d.png", "image/png", 1, "pD"⟩
    (by decide) (by decide)).1

/-! ### C8: files without a byte payload -/

/-- C8 (counterexample to the claim as stated): in the **update** flow a
buffer-less image file is *not* skipped — the handler issues an upload call
for it (here: exactly one call, for the payload-less `nobuf.png`).  The
silent-skip behaviour holds only in the create flow. -/
theorem update_uploads_bufferless_file :
    uploadCalls (update envA "A1" {} { images := some [⟨"nobuf.png", "image/png", 5, none⟩] }
      (some ⟨"e1", "e at x", .editor⟩)).2 = ["nobuf.png"] := rfl

/-- C8 (amended): in the create flow a file without a byte payload is
silently skipped — the upload loop drops it and keeps processing the rest,
and a payload-less featured file short-circuits the whole featured step —
while in the update flow no buffer check is performed: both the gallery
fan-out and the featured step issue an upload call even for a payload-less
file. -/
theorem bufferless_files (env : Env) (f : MFile) (rest : List MFile)
    (hf : f.buffer = none) :
    (createUploadLoop env (f :: rest) = createUploadLoop env rest)
    ∧ (∀ aid im vd tl, createFeaturedStep env aid ⟨some (f :: tl), im, vd⟩ = (.ok (), []))
    ∧ ((uploadAllRaw env (f :: rest)).2.head? = some (.upload f.originalname))
    ∧ (∀ art tl, (updateFeaturedStep env art ⟨some (f :: tl), none, none⟩).2.head? =
        some (.upload f.originalname)) := by
  refine ⟨?_, ?_, ?_, ?_⟩
  · simp [createUploadLoop, hf]
  · intro aid im vd tl
    simp [createFeaturedStep, hf]
  · rcases h : env.uploadOutcome f.originalname with m | u <;>
      simp [uploadAllRaw, h]
  · intro art tl
    rcases h : env.uploadOutcome f.originalname with m | u
    · simp [updateFeaturedStep, h]
    · rcases hm : art.featuredMedia with _ | old <;> simp [updateFeaturedStep, h, hm]

/-- Witness for the amended C8 at a concrete payload-less file. -/
theorem bufferless_files_witness :
    createUploadLoop envA [⟨"nobuf.png", "image/png", 5, none⟩] = (.ok [], [])
    ∧ createFeaturedStep envA "A1" ⟨some [⟨"nobuf.png", "image/png", 5, none⟩], none, none⟩ =
        (.ok (), [])
    ∧ (uploadAllRaw envA [⟨"nobuf.png", "image/png", 5, none⟩]).2.head? =
        some (.upload "nobuf.png") := by
  have h := bufferless_files envA ⟨"nobuf.png", "image/png", 5, none⟩ [] rfl
  exact ⟨h.1, h.2.1 "A1" none none [], h.2.2.1⟩

/-! ### C9: get-by-id author ownership -/

/-- C9: on `GET /admin/articles/:id`, a caller with role AUTHOR receives
`Forbidden` whenever the fetched article's `authorId` differs from the
caller's id, and receives the article itself whenever it matches (the
`Forbidden` passes through the catch verbatim). -/
theorem findById_author_scope (env : Env) (i : String) (u : User) (art : Article)
    (hfetch : env.fetchById i = some art) (hrole : u.role = .author) :
    (art.authorId ≠ u.id →
      findById env i (some u) =
        .error ⟨.forbidden, "You are not authorized to access this article."⟩)
    ∧ (art.authorId = u.id → findById env i (some u) = .ok art) := by
  constructor <;> intro h <;> simp [findById, hfetch, hrole, h]

/-- Witness for C9: the author of `artA` (`u1`) gets the article back, a
different author (`u2`) gets `Forbidden`. -/
theorem findById_author_scope_witness :
    findById envA "A1" (some ⟨"u2", "e at x", .author⟩) =
      .error ⟨.forbidden, "You are not authorized to access this article."⟩
    ∧ findById envA "A1" (some ⟨"u1", "e at x", .author⟩) = .ok artA :=
  ⟨(findById_author_scope envA "A1" ⟨"u2", "e at x", .author⟩ artA rfl rfl).1 (by decide),
   (findById_author_scope envA "A1" ⟨"u1", "e at x", .author⟩ artA rfl rfl).2 rfl⟩

/-! ### C3: update on an unresolvable article id -/

/-- C3: whenever the update request's article id does not resolve, the
surfaced error is a `BadRequest` wrapping the underlying message — never
`NotFound`.  Mechanism, per caller: a missing user still yields the wrapped
`Unauthorized` message; an AUTHOR caller hits the null dereference in the
ownership check (which runs *before* the null check); any other caller
reaches the `NotFoundException`, which the catch-all also converts to
`BadRequest`. -/
theorem update_missing_article_badRequest (env : Env) (i : String)
    (dto : UpdateArticleDto) (files : FileGroups) (user? : Option User)
    (hfetch : env.fetchById i = none) :
    ∃ m, (update env i dto files user?).1 =
      .error ⟨.badRequest, "Failed to update article: " ++ m⟩ := by
  rcases user? with _ | u
  · refine ⟨"Authentication required", ?_⟩
    simp [update, updateInner, updateAuthPhase, hfetch, JsErr.message]
  · by_cases hr : u.role = .author
    · refine ⟨"Cannot read properties of null (reading authorId)", ?_⟩
      simp [update, updateInner, updateAuthPhase, hfetch, hr, JsErr.message]
    · refine ⟨"Article not found", ?_⟩
      simp [update, updateInner, updateAuthPhase, hfetch, hr, JsErr.message]

/-- Witness for C3: an EDITOR updating a non-existent article gets a
`BadRequest`, not a `NotFound`. -/
theorem update_missing_article_badRequest_witness :
    errKind (update envNone "X" {} {} (some ⟨"u1", "e at x", .editor⟩)).1 =
      some .badRequest := by
  obtain ⟨m, hm⟩ :=
    update_missing_article_badRequest envNone "X" {} {} (some ⟨"u1", "e at x", .editor⟩) rfl
  rw [hm]
  rfl

/-! ### C7: delete cleans up files only for drafts -/

theorem fileDeleteCalls_append (a b : List Effect) :
    fileDeleteCalls (a ++ b) = fileDeleteCalls a ++ fileDeleteCalls b := by
  induction a with
  | nil => rfl
  | cons e rest ih => cases e <;> simp [fileDeleteCalls, ih]

theorem fileDeleteCalls_map (env : Env) (l : List IFile) :
    fileDeleteCalls
      (l.map (fun f => Effect.deleteFile (.str f.id) (env.deleteFileOutcome (.str f.id)))) =
      l.map (fun f => JsVal.str f.id) := by
  induction l with
  | nil => rfl
  | cons f rest ih => simp [fileDeleteCalls, ih]

/-- C7: for an authorized delete of an existing article, the file-deletion
calls issued are exactly the article's featured/image/video file ids when
its status is `draft` and none otherwise; the article row is deleted
unconditionally, and failing file deletions (the `env` is arbitrary,
including one whose every file deletion fails) never abort the request. -/
theorem delete_draft_file_cleanup (env : Env) (i : String) (u : User) (art : Article)
    (hrole : u.role = .admin ∨ u.role = .editor)
    (hfetch : env.fetchById i = some art)
    (hdel : env.deleteArticleOutcome i = .ok ()) :
    (deleteArticle env i (some u)).1 = .ok ()
    ∧ (deleteArticle env i (some u)).2 =
        (if art.status = .draft then draftFileDeletions env art else []) ++
          [Effect.execDelete i true]
    ∧ fileDeleteCalls (deleteArticle env i (some u)).2 =
        (if art.status = .draft then
          (match art.featuredMedia with
           | some fm => [JsVal.str fm.id]
           | none => []) ++
            art.images.map (fun f => JsVal.str f.id) ++
            art.videos.map (fun f => JsVal.str f.id)
        else []) := by
  have hok : (deleteArticle env i (some u)).1 = .ok () := by
    rcases hrole with h | h <;> simp [deleteArticle, hfetch, hdel, h]
  have htr : (deleteArticle env i (some u)).2 =
      (if art.status = .draft then draftFileDeletions env art else []) ++
        [Effect.execDelete i true] := by
    rcases hrole with h | h <;> simp [deleteArticle, hfetch, hdel, h]
  refine ⟨hok, htr, ?_⟩
  rw [htr, fileDeleteCalls_append]
  by_cases hst : art.status = .draft
  · rw [if_pos hst, if_pos hst]
    rw [draftFileDeletions, fileDeleteCalls_append, fileDeleteCalls_append]
    rw [fileDeleteCalls_map, fileDeleteCalls_map]
    rcases hm : art.featuredMedia with _ | fm <;> simp [fileDeleteCalls]
  · rw [if_neg hst, if_neg hst]
    rfl

/-- Witness for C7: deleting the draft article (with every file deletion
failing) issues exactly the three file-deletion calls and still succeeds;
deleting the published twin issues none. -/
theorem delete_draft_file_cleanup_witness :
    (deleteArticle envDraftFiles "A1" (some ⟨"e1", "e at x", .editor⟩)).1 = .ok ()
    ∧ fileDeleteCalls (deleteArticle envDraftFiles "A1" (some ⟨"e1", "e at x", .editor⟩)).2 =
        [.str "F1", .str "I1", .str "V1"]
    ∧ fileDeleteCalls (deleteArticle envPubFiles "A1" (some ⟨"e1", "e at x", .editor⟩)).2 =
        [] := by
  have hd := delete_draft_file_cleanup envDraftFiles "A1" ⟨"e1", "e at x", .editor⟩
    artDraftFiles (Or.inr rfl) rfl rfl
  have hp := delete_draft_file_cleanup envPubFiles "A1" ⟨"e1", "e at x", .editor⟩
    artPubFiles (Or.inr rfl) rfl rfl
  refine ⟨hd.1, ?_, ?_⟩
  · rw [hd.2.2]
    rfl
  · rw [hp.2.2]
    rfl

/-! ### C2: how authorization failures propagate per endpoint -/

/-- C2 (counterexample to the claim as stated): a create request with no
caller identity throws `UnauthorizedException`, but the create flow's
catch-all re-wraps it into a `BadRequest` carrying its message — the
surfaced error kind is not `Unauthorized`.  Authorization failures therefore
do **not** propagate verbatim on every endpoint. -/
theorem create_rewraps_auth_failure :
    (create envA {} {} none).1 =
      .error ⟨.badRequest, "Failed to create article: Authentication required"⟩
    ∧ errKind (create envA {} {} none).1 ≠ some .unauthorized :=
  ⟨rfl, by decide⟩

/-- C2 (amended): authorization failures propagate verbatim on the read
endpoints (`list`, `findById`; likewise search/archive/publish/unpublish/
unarchive/remove-tag, whose catches rethrow them), but the create and update
flows re-wrap them into `BadRequest`, the tag-assign flow re-wraps them into
`BadRequest`, and the delete flow re-wraps them into `InternalServerError`. -/
theorem auth_error_propagation :
    (∀ lu dto, list lu dto none = .error ⟨.unauthorized, "Authentication required"⟩)
    ∧ (∀ lu (dto : ListArticlesDto) (u : User) (a : String),
        u.role = .author → dto.authorId = some a → a ≠ "" → a ≠ u.id →
        list lu dto (some u) =
          .error ⟨.forbidden, "Authors can only view their own articles"⟩)
    ∧ (∀ env i, findById env i none = .error ⟨.unauthorized, "Authentication required"⟩)
    ∧ (∀ env dto files, (create env dto files none).1 =
        .error ⟨.badRequest, "Failed to create article: Authentication required"⟩)
    ∧ (∀ env i dto files, (update env i dto files none).1 =
        .error ⟨.badRequest, "Failed to update article: Authentication required"⟩)
    ∧ (∀ env i, (deleteArticle env i none).1 =
        .error ⟨.internal, "Failed to delete article and associated files"⟩)
    ∧ (∀ au i tids, assignTags au i tids none =
        .error ⟨.badRequest, "Failed to assign tags: Authentication required"⟩) := by
  refine ⟨fun lu dto => rfl, ?_, fun env i => rfl, fun env dto files => rfl,
    fun env i dto files => rfl, fun env i => rfl, fun au i tids => rfl⟩
  intro lu dto u a hr ha hne hnid
  have h1 : optTruthy dto.authorId = true := by
    rw [ha]
    simp [optTruthy, hne]
  have h2 : dto.authorId ≠ some u.id := by
    rw [ha]
    simp [hnid]
  simp [list, hr, h1, h2]

/-- Witness for the amended C2: every conjunct instantiated at concrete
inputs, the AUTHOR-mismatch one with author `u1` requesting author `u9`. -/
theorem auth_error_propagation_witness :
    list listOk {} none = .error ⟨.unauthorized, "Authentication required"⟩
    ∧ list listOk { authorId := some "u9" } (some ⟨"u1", "e at x", .author⟩) =
        .error ⟨.forbidden, "Authors can only view their own articles"⟩
    ∧ findById envA "A1" none = .error ⟨.unauthorized, "Authentication required"⟩
    ∧ (create envA {} {} none).1 =
        .error ⟨.badRequest, "Failed to create article: Authentication required"⟩
    ∧ (update envA "A1" {} {} none).1 =
        .error ⟨.badRequest, "Failed to update article: Authentication required"⟩
    ∧ (deleteArticle envA "A1" none).1 =
        .error ⟨.internal, "Failed to delete article and associated files"⟩
    ∧ assignTags assignOk "A1" ["t1"] none =
        .error ⟨.badRequest, "Failed to assign tags: Authentication required"⟩ :=
  ⟨auth_error_propagation.1 listOk {},
   auth_error_propagation.2.1 listOk { authorId := some "u9" } ⟨"u1", "e at x", .author⟩
     "u9" rfl rfl (by decide) (by decide),
   auth_error_propagation.2.2.1 envA "A1",
   auth_error_propagation.2.2.2.1 envA {} {},
   auth_error_propagation.2.2.2.2.1 envA "A1" {} {},
   auth_error_propagation.2.2.2.2.2.1 envA "A1",
   auth_error_propagation.2.2.2.2.2.2 assignOk "A1" ["t1"]⟩

/-! ### C1: compensating skeleton deletion in the create flow -/

/-- The role guard of `create` admits every `UserRole`. -/
theorem roleAllowedCreate_true (r : UserRole) : roleAllowedCreate r = true := by
  cases r <;> rfl

theorem resolveExistingTags_benign (env : Env) (l : List String) :
    ((resolveExistingTags env l).2).all Effect.benign = true := by
  induction l with
  | nil => rfl
  | cons tid rest ih =>
    rw [resolveExistingTags]
    rcases h : env.tagFind tid with m | ot
    · simp [Effect.benign]
    · rcases ot with _ | t <;> simp [Effect.benign, ih]

theorem createNewTags_benign (env : Env) (k : Nat) (l : List JsVal) :
    ((createNewTags env k l).2).all Effect.benign = true := by
  induction l generalizing k with
  | nil => rfl
  | cons td rest ih =>
    rw [createNewTags]
    rcases h : env.tagCreateOutcome (env.freshTagIds k) with m | u <;>
      simp [Effect.benign, ih]

theorem execUpdateStep_benign (env : Env) (cmd : UpdateArticleCommand) :
    ((execUpdateStep env cmd).2).all Effect.benign = true := by
  rw [execUpdateStep]
  rcases h : env.updateOutcome cmd with m | u <;> simp [Effect.benign]

theorem tagsUpdateStep_benign (env : Env) (aid : String) (allTags : List ITag) :
    ((tagsUpdateStep env aid allTags).2).all Effect.benign = true := by
  rw [tagsUpdateStep]
  split
  · rfl
  · exact execUpdateStep_benign env _

theorem mediaUpdateStep_benign (env : Env) (aid : String) (imgs vids : List IFile) :
    ((mediaUpdateStep env aid imgs vids).2).all Effect.benign = true := by
  rw [mediaUpdateStep]
  split
  · rfl
  · exact execUpdateStep_benign env _

theorem createFeaturedStep_benign (env : Env) (aid : String) (files : FileGroups) :
    ((createFeaturedStep env aid files).2).all Effect.benign = true := by
  rw [createFeaturedStep]
  rcases files.featuredMedia with _ | ⟨_ | ⟨f, tl⟩⟩
  · rfl
  · rfl
  · rcases hb : f.buffer with _ | b
    · simp [hb]
    · rcases h : env.uploadOutcome f.originalname with m | u
      · simp [hb, h, Effect.benign]
      · simp [hb, h, Effect.benign, execUpdateStep_benign]

theorem createUploadLoop_benign (env : Env) (l : List MFile) :
    ((createUploadLoop env l).2).all Effect.benign = true := by
  induction l with
  | nil => rfl
  | cons f rest ih =>
    rw [createUploadLoop]
    rcases hb : f.buffer with _ | b
    · exact ih
    · rcases h : env.uploadOutcome f.originalname with m | u <;>
        simp [Effect.benign, ih]

theorem createInner_benign (env : Env) (aid : String) (ptagIds : List String)
    (ptags : List JsVal) (files : FileGroups) :
    ((createInner env aid ptagIds ptags files).2).all Effect.benign = true := by
  have H1 := resolveExistingTags_benign env ptagIds
  have H2 := createNewTags_benign env 0 ptags
  have H4 := createFeaturedStep_benign env aid files
  have H5 := createUploadLoop_benign env (files.images.getD [])
  have H6 := createUploadLoop_benign env (files.videos.getD [])
  unfold createInner
  rcases h1 : (resolveExistingTags env ptagIds).1 with e1 | exTags <;> simp only [h1]
  · exact H1
  · rcases h2 : (createNewTags env 0 ptags).1 with e2 | newTags <;> simp only [h2]
    · simp [List.all_append, H1, H2]
    · have H3 := tagsUpdateStep_benign env aid (exTags ++ newTags)
      rcases h3 : (tagsUpdateStep env aid (exTags ++ newTags)).1 with e3 | u3 <;>
        simp only [h3]
      · simp [List.all_append, H1, H2, H3]
      · rcases h4 : (createFeaturedStep env aid files).1 with e4 | u4 <;> simp only [h4]
        · simp [List.all_append, H1, H2, H3, H4]
        · rcases h5 : (createUploadLoop env (files.images.getD [])).1 with e5 | imgs <;>
            simp only [h5]
          · simp [List.all_append, H1, H2, H3, H4, H5]
          · rcases h6 : (createUploadLoop env (files.videos.getD [])).1 with e6 | vids <;>
              simp only [h6]
            · simp [List.all_append, H1, H2, H3, H4, H5, H6]
            · have H7 := mediaUpdateStep_benign env aid imgs vids
              rcases h7 : (mediaUpdateStep env aid imgs vids).1 with e7 | u7 <;>
                simp only [h7]
              · simp [List.all_append, H1, H2, H3, H4, H5, H6, H7]
              · rcases h8 : env.fetchById aid with _ | a <;> simp only [h8] <;>
                  simp [List.all_append, H1, H2, H3, H4, H5, H6, H7]

/-- A trace without article persists or deletes leaves the store unchanged. -/
theorem applyTrace_benign (tr : List Effect) (s : List String)
    (h : tr.all Effect.benign = true) : applyTrace tr s = s := by
  induction tr generalizing s with
  | nil => rfl
  | cons e rest ih =>
    rw [List.all_cons, Bool.and_eq_true] at h
    have hs : applyEffect s e = s := by
      cases e <;> simp_all [applyEffect, Effect.benign]
    calc applyTrace (e :: rest) s = applyTrace rest (applyEffect s e) := rfl
      _ = applyTrace rest s := by rw [hs]
      _ = s := ih s h.2

/-- C1: when any step of the create flow after the skeleton persist throws
(tag resolution, tag persistence, featured/image/video upload, one of the
enriching updates, or the final re-fetch) and the delete use-case behaves,
the handler deletes the skeleton by its id and surfaces a `BadRequest`; on
any article store not already holding that id, replaying the request's
persistence effects leaves the id absent — the article is not retrievable
afterwards. -/
theorem create_compensates (env : Env) (dto : CreateArticleDto) (files : FileGroups)
    (u : User) (ptags : List JsVal) (aid : String) (e : JsErr)
    (hparse : parseTagsField dto.tags = .ok ptags)
    (hskel : env.createOutcome (mkCreateCommand dto u) = .ok aid)
    (hfail : (createInner env aid (parseTagIdsField dto.tagIds) ptags files).1 = .error e)
    (hdel : env.deleteArticleOutcome aid = .ok ()) :
    (create env dto files (some u)).1 =
      .error ⟨.badRequest,
        "Failed to create article: " ++ ("Failed to upload files: " ++ e.message)⟩
    ∧ (create env dto files (some u)).2 =
        .createArticle aid ::
          (createInner env aid (parseTagIdsField dto.tagIds) ptags files).2 ++
          [.execDelete aid true]
    ∧ ∀ store : List String, aid ∉ store →
        aid ∉ applyTrace (create env dto files (some u)).2 store := by
  have hrole := roleAllowedCreate_true u.role
  have h1 : (create env dto files (some u)).1 =
      .error ⟨.badRequest,
        "Failed to create article: " ++ ("Failed to upload files: " ++ e.message)⟩ := by
    simp [create, hrole, hparse, hskel, hfail, hdel, createWrap, JsErr.message]
  have h2 : (create env dto files (some u)).2 =
      .createArticle aid ::
        (createInner env aid (parseTagIdsField dto.tagIds) ptags files).2 ++
        [.execDelete aid true] := by
    simp [create, hrole, hparse, hskel, hfail, hdel]
  refine ⟨h1, h2, ?_⟩
  intro store hstore
  rw [h2]
  have hmid : applyTrace (createInner env aid (parseTagIdsField dto.tagIds) ptags files).2
      (aid :: store) = aid :: store :=
    applyTrace_benign _ _ (createInner_benign env aid (parseTagIdsField dto.tagIds) ptags files)
  have happ : applyTrace
      (.createArticle aid ::
        (createInner env aid (parseTagIdsField dto.tagIds) ptags files).2 ++
        [.execDelete aid true]) store = store := by
    calc applyTrace
          (.createArticle aid ::
            (createInner env aid (parseTagIdsField dto.tagIds) ptags files).2 ++
            [.execDelete aid true]) store
        = applyTrace
            ((createInner env aid (parseTagIdsField dto.tagIds) ptags files).2 ++
              [.execDelete aid true]) (aid :: store) := rfl
      _ = applyTrace [.execDelete aid true]
            (applyTrace (createInner env aid (parseTagIdsField dto.tagIds) ptags files).2
              (aid :: store)) := by
          rw [applyTrace, applyTrace, applyTrace, List.foldl_append]
      _ = applyTrace [.execDelete aid true] (aid :: store) := by rw [hmid]
      _ = (aid :: store).erase aid := rfl
      _ = store := by rw [List.erase_cons_head]
  rw [happ]
  exact hstore

/-- Witness for C1: a create request referencing an unknown tag id fails
after the skeleton persist; the skeleton (`A1`) is deleted, the surfaced
error is the wrapped `BadRequest`, and replaying the trace on an empty
store leaves `A1` absent. -/
theorem create_compensates_witness :
    ((create { envA with tagFind := fun _ => .ok none }
        { tagIds := .arr ["t9"] } {} (some ⟨"u1", "e at x", .author⟩)).1 =
      .error ⟨.badRequest,
        "Failed to create article: " ++
          ("Failed to upload files: " ++ "Tag with ID t9 not found")⟩)
    ∧ "A1" ∉ applyTrace
        (create { envA with tagFind := fun _ => .ok none }
          { tagIds := .arr ["t9"] } {} (some ⟨"u1", "e at x", .author⟩)).2 [] := by
  have h := create_compensates { envA with tagFind := fun _ => .ok none }
    { tagIds := .arr ["t9"] } {} ⟨"u1", "e at x", .author⟩ [] "A1"
    (.http .badRequest "Tag with ID t9 not found") rfl rfl rfl rfl
  exact ⟨h.1, h.2.2 [] (List.not_mem_nil "A1")⟩

end ArticleCtl
